import Mathlib

/-!
Shallow embedding of the snowflake id generator (`golang/snowflake.go`).

Machine integers (`int64`) are modelled as `Int`.  Where the Go program can
overflow (the left shift composing an id), the embedding wraps explicitly to
the two's-complement range via `wrap64`.  The bitwise operators `&`, `|`, `^`
of Go are `Int.land`, `Int.lor`, `Int.xor`, whose two's-complement semantics
on `Int` agree with `int64` for in-range values; Go's arithmetic right shift
`>>` on `int64` is floor division by a power of two (`sar`).

The wall clock (`getNewTimeStamp`, reading `time.Now`) is modelled as a list
of successive readings supplied by the environment: each clock read consumes
the head of the list.  A result of `none` means the list of readings was
exhausted or the code diverges (the `for` loop of `getNextMill` never
terminates when the first reading already exceeds `LastTimeStamp`).
-/

namespace Snowflake

/-- Custom epoch, milliseconds (`start_timestamp` in the source). -/
def start_timestamp : Int := 1480166465631

/-- Bits of the sequence field. -/
def sequence_bit : Nat := 12

/-- Bits of the machine id field. -/
def machine_bit : Nat := 6

/-- Bits of the data center field. -/
def data_center_bit : Nat := 4

/-- Bits of the timestamp field. -/
def timestamp_bit : Nat := 41

/-- The reserved sign bit. -/
def sign_bit : Nat := 1

/-- The constant `-1` used by the source to build the masks. -/
def negativeOne : Int := -1

/-- Wrap an integer to the `int64` range `[-2^63, 2^63)` (two's complement). -/
def wrap64 (x : Int) : Int := (x + 2 ^ 63) % 2 ^ 64 - 2 ^ 63

/-- Go's `<<` on `int64`: shift left with two's-complement wraparound. -/
def shl64 (x : Int) (n : Nat) : Int := wrap64 (x * 2 ^ n)

/-- Go's `>>` on `int64`: arithmetic shift right, i.e. floor division. -/
def sar (x : Int) (n : Nat) : Int := Int.fdiv x (2 ^ n)

/-- `max_sequence = -1 ^ (-1 << sequence_bit)` from the source. -/
def max_sequence : Int := Int.xor negativeOne (shl64 negativeOne sequence_bit)

/-- `max_machine_num = -1 ^ (-1 << machine_bit)` from the source. -/
def max_machine_num : Int := Int.xor negativeOne (shl64 negativeOne machine_bit)

/-- `max_data_center_num = -1 ^ (-1 << data_center_bit)` from the source. -/
def max_data_center_num : Int := Int.xor negativeOne (shl64 negativeOne data_center_bit)

/-- `max_timestamp_num = -1 ^ (-1 << timestamp_bit)` from the source. -/
def max_timestamp_num : Int := Int.xor negativeOne (shl64 negativeOne timestamp_bit)

/-- Left shift of the machine id field. -/
def machine_left : Nat := sequence_bit

/-- Left shift of the data center field. -/
def data_center_left : Nat := sequence_bit + machine_bit

/-- Left shift of the timestamp field. -/
def timestamp_left : Nat := data_center_left + data_center_bit

/-- The generator state (`snowFlakeId` struct; the mutex is not data). -/
structure snowFlakeId where
  DataCenterId : Int
  MachineId : Int
  Sequence : Int
  LastTimeStamp : Int
  deriving DecidableEq

/-- `getNewTimeStamp` reads the wall clock: it consumes the next reading. -/
def getNewTimeStamp (clock : List Int) : Option (Int × List Int) :=
  match clock with
  | [] => none
  | t :: r => some (t, r)

/-- `getNextMill` of the Go source, translated faithfully: it reads the
clock once; then the `for` loop tests `mill <= p.LastTimeStamp`, and on
success re-reads the clock once and `break`s — so the second reading is
returned unconditionally.  When the first reading is already greater than
`LastTimeStamp` the loop body never runs its `break` and the function
diverges, modelled as `none`. -/
def getNextMill (p : snowFlakeId) (clock : List Int) : Option (Int × List Int) :=
  match getNewTimeStamp clock with
  | none => none
  | some (mill, r) =>
    if mill ≤ p.LastTimeStamp then
      match getNewTimeStamp r with
      | none => none
      | some (mill2, r2) => some (mill2, r2)
    else none

/-- `NewInstance` of the Go source: returns the struct plus the error slot
(`nil` error modelled as `none`). -/
def NewInstance (dataCenterId machineId : Int) : snowFlakeId × Option String :=
  let sf : snowFlakeId :=
    { DataCenterId := 0, MachineId := 0, Sequence := 0, LastTimeStamp := negativeOne }
  if dataCenterId > max_data_center_num ∨ dataCenterId < 0 then
    (sf, some "DtaCenterId can't be greater than MAX_DATA_CENTER_NUM or less than 0！")
  else if machineId > max_machine_num ∨ machineId < 0 then
    (sf, some "MachineId can't be greater than MAX_MACHINE_NUM or less than 0！")
  else ({ sf with DataCenterId := dataCenterId, MachineId := machineId }, none)

/-- The id composition at the end of `NextId`:
`(currTimeStamp-start_timestamp)<<timestamp_left | p.DataCenterId<<data_center_left |
p.MachineId<<machine_left | p.Sequence`, evaluated on the already-updated state. -/
def composeNextId (currTimeStamp : Int) (p : snowFlakeId) : Int :=
  Int.lor
    (Int.lor
      (Int.lor (shl64 (currTimeStamp - start_timestamp) timestamp_left)
        (shl64 p.DataCenterId data_center_left))
      (shl64 p.MachineId machine_left))
    p.Sequence

/-- `NextId` of the Go source.  The result is `none` when the clock stream is
exhausted or `getNextMill` diverges; otherwise the Go `(int64, error)` pair is
an `Except`, together with the state after the call and the remaining clock
readings. -/
def NextId (p : snowFlakeId) (clock : List Int) :
    Option (Except String Int × snowFlakeId × List Int) :=
  match getNewTimeStamp clock with
  | none => none
  | some (currTimeStamp, clock1) =>
    if currTimeStamp < p.LastTimeStamp then
      some (Except.error "Clock moved backwards.  Refusing to generate id", p, clock1)
    else if currTimeStamp = p.LastTimeStamp then
      let p1 := { p with Sequence := Int.land (p.Sequence + 1) max_sequence }
      if p1.Sequence = 0 then
        match getNextMill p1 clock1 with
        | none => none
        | some (mill, clock2) =>
          let p2 := { p1 with LastTimeStamp := mill }
          some (Except.ok (composeNextId mill p2), p2, clock2)
      else
        let p2 := { p1 with LastTimeStamp := currTimeStamp }
        some (Except.ok (composeNextId currTimeStamp p2), p2, clock1)
    else
      let p1 := { p with Sequence := 0 }
      let p2 := { p1 with LastTimeStamp := currTimeStamp }
      some (Except.ok (composeNextId currTimeStamp p2), p2, clock1)

/-- `ParseDataCenter` of the Go source. -/
def ParseDataCenter (id : Int) : Int :=
  sar (Int.land id (shl64 max_data_center_num data_center_left)) data_center_left

/-- `ParseMachineId` of the Go source. -/
def ParseMachineId (id : Int) : Int :=
  sar (Int.land id (shl64 max_machine_num machine_left)) machine_left

/-- `ParseDateTime` of the Go source. -/
def ParseDateTime (id : Int) : Int :=
  sar (Int.land id (shl64 max_timestamp_num timestamp_left)) timestamp_left

/-- `ParseSequence` of the Go source. -/
def ParseSequence (id : Int) : Int :=
  Int.land id max_sequence

/-- Evaluation of the mask constants. -/
theorem max_sequence_eq : max_sequence = 4095 := by decide

theorem max_machine_num_eq : max_machine_num = 63 := by decide

theorem max_data_center_num_eq : max_data_center_num = 15 := by decide

theorem max_timestamp_num_eq : max_timestamp_num = 2 ^ 41 - 1 := by decide

/-! Bit-field arithmetic: `Nat`-level characterisations of the masking,
shifting and or-ing done by the source, proved by bit extensionality. -/

/-- Masking with a field mask `(2^j - 1) * 2^i` extracts bits `i .. i+j-1`. -/
theorem nat_field_extract (a i j : Nat) :
    a &&& (2 ^ j - 1) * 2 ^ i = a / 2 ^ i % 2 ^ j * 2 ^ i := by
  apply Nat.eq_of_testBit_eq
  intro k
  rw [Nat.testBit_and, Nat.mul_comm (2 ^ j - 1) (2 ^ i), Nat.testBit_mul_pow_two,
    Nat.mul_comm (a / 2 ^ i % 2 ^ j) (2 ^ i), Nat.testBit_mul_pow_two,
    Nat.testBit_mod_two_pow, ← Nat.shiftRight_eq_div_pow, Nat.testBit_shiftRight,
    Nat.testBit_two_pow_sub_one]
  by_cases hik : i ≤ k
  · have hk : i + (k - i) = k := by omega
    rw [hk]
    simp [ge_iff_le, hik, Bool.and_comm, Bool.and_left_comm]
  · simp [ge_iff_le, hik]

/-- The same field extraction for the complemented argument (the `negSucc`
case of `Int.land`). -/
theorem nat_ldiff_field (a i j : Nat) :
    Nat.ldiff ((2 ^ j - 1) * 2 ^ i) a = (2 ^ j - 1 - a / 2 ^ i % 2 ^ j) * 2 ^ i := by
  have hc : a / 2 ^ i % 2 ^ j < 2 ^ j := Nat.mod_lt _ (Nat.two_pow_pos j)
  have h1 : 2 ^ j - 1 - a / 2 ^ i % 2 ^ j = 2 ^ j - (a / 2 ^ i % 2 ^ j + 1) := by omega
  apply Nat.eq_of_testBit_eq
  intro k
  rw [Nat.testBit_ldiff, h1, Nat.mul_comm (2 ^ j - 1) (2 ^ i), Nat.testBit_mul_pow_two,
    Nat.mul_comm (2 ^ j - (a / 2 ^ i % 2 ^ j + 1)) (2 ^ i), Nat.testBit_mul_pow_two,
    Nat.testBit_two_pow_sub_succ hc, Nat.testBit_mod_two_pow,
    ← Nat.shiftRight_eq_div_pow, Nat.testBit_shiftRight, Nat.testBit_two_pow_sub_one]
  by_cases hik : i ≤ k
  · have hk : i + (k - i) = k := by omega
    rw [hk]
    by_cases hj : k - i < j <;> simp [ge_iff_le, hik, hj]
  · simp [ge_iff_le, hik]

/-- When the low `n` bits of `a` are all ones and `b < 2^n`, clearing the
bits of `b` from `a` is subtraction. -/
theorem nat_ldiff_all_ones {n a b : Nat} (ha : a % 2 ^ n = 2 ^ n - 1) (hb : b < 2 ^ n) :
    Nat.ldiff a b = a - b := by
  have hP := Nat.two_pow_pos n
  have ha2 : a = 2 ^ n * (a / 2 ^ n) + (2 ^ n - 1) := by
    conv_lhs => rw [← Nat.div_add_mod a (2 ^ n)]
    rw [ha]
  have hsub : a - b = 2 ^ n * (a / 2 ^ n) + (2 ^ n - (b + 1)) := by omega
  apply Nat.eq_of_testBit_eq
  intro k
  rw [Nat.testBit_ldiff, hsub]
  conv_lhs => rw [ha2]
  rw [Nat.testBit_mul_pow_two_add _ (show (2 : Nat) ^ n - 1 < 2 ^ n by omega),
    Nat.testBit_mul_pow_two_add _ (show (2 : Nat) ^ n - (b + 1) < 2 ^ n by omega)]
  by_cases hk : k < n
  · rw [if_pos hk, if_pos hk, Nat.testBit_two_pow_sub_one, Nat.testBit_two_pow_sub_succ hb]
  · rw [if_neg hk, if_neg hk]
    have hbk : b < 2 ^ k :=
      lt_of_lt_of_le hb (Nat.pow_le_pow_right (by norm_num) (by omega))
    rw [Nat.testBit_lt_two_pow hbk]
    simp

/-! Lifting the bitwise characterisations to `Int` (covering negative
arguments, i.e. the `negSucc` constructor). -/

theorem land_ofNat (a b : Nat) : Int.land ↑a ↑b = ↑(a &&& b) := rfl

theorem land_negSucc_ofNat (a b : Nat) :
    Int.land (Int.negSucc a) ↑b = ↑(Nat.ldiff b a) := rfl

theorem lor_ofNat (a b : Nat) : Int.lor ↑a ↑b = ↑(a ||| b) := rfl

theorem lor_negSucc_ofNat (a b : Nat) :
    Int.lor (Int.negSucc a) ↑b = Int.negSucc (Nat.ldiff a b) := rfl

/-- Field extraction on `Int`: for every `int64` value `x` (positive or
negative), `x & ((2^j - 1) << i) >> i` — written arithmetically — is
`x / 2^i % 2^j`. -/
theorem land_field (x : Int) (i j : Nat) :
    Int.land x ((2 ^ j - 1) * 2 ^ i) = x / 2 ^ i % 2 ^ j * 2 ^ i := by
  have hcast : ((2 ^ j - 1) * 2 ^ i : Int) = (((2 ^ j - 1) * 2 ^ i : Nat) : Int) := by
    push_cast [Nat.one_le_two_pow]
    ring
  have h2i : ((2 : Int) ^ i) = ((2 ^ i : Nat) : Int) := by push_cast; ring
  cases x with
  | ofNat a =>
    rw [Int.ofNat_eq_coe, hcast, land_ofNat, nat_field_extract]
    push_cast
    ring
  | negSucc a =>
    rw [hcast, land_negSucc_ofNat, nat_ldiff_field]
    have hdiv : (Int.negSucc a) / ((2 : Int) ^ i) = Int.negSucc (a / 2 ^ i) := by
      rw [h2i, Int.negSucc_ediv _ (by positivity)]
      rw [show Int.ediv ↑a ↑(2 ^ i : Nat) = ((a / 2 ^ i : Nat) : Int) from rfl]
      rw [Int.negSucc_eq]
    rw [hdiv, Int.negSucc_emod _ (by positivity)]
    have hmlt : a / 2 ^ i % 2 ^ j < 2 ^ j := Nat.mod_lt _ (Nat.two_pow_pos j)
    rw [Nat.cast_mul, Nat.cast_sub (by omega : a / 2 ^ i % 2 ^ j ≤ 2 ^ j - 1),
      Nat.cast_sub Nat.one_le_two_pow]
    push_cast
    ring

/-- Disjoint `or` is addition: if `x` has zero low `n` bits and
`0 ≤ y < 2^n`, then `x | y = x + y` (also for negative `x`). -/
theorem lor_eq_add {n : Nat} {x y : Int} (hx : (2 ^ n : Int) ∣ x) (hy0 : 0 ≤ y)
    (hyn : y < 2 ^ n) : Int.lor x y = x + y := by
  have h2n : ((2 : Int) ^ n) = ((2 ^ n : Nat) : Int) := by push_cast; ring
  obtain ⟨b, rfl⟩ := Int.eq_ofNat_of_zero_le hy0
  have hb : b < 2 ^ n := by
    rw [h2n] at hyn
    exact_mod_cast hyn
  cases x with
  | ofNat a =>
    rw [Int.ofNat_eq_coe] at hx ⊢
    have ha : (2 ^ n : Nat) ∣ a := by
      rw [h2n] at hx
      exact_mod_cast hx
    obtain ⟨c, rfl⟩ := ha
    rw [lor_ofNat, ← Nat.mul_add_lt_is_or hb c]
    push_cast
    ring
  | negSucc a =>
    have ha : (2 ^ n : Nat) ∣ (a + 1) := by
      have h1 : (2 ^ n : Int) ∣ (↑(a + 1) : Int) := by
        have h2 : (↑(a + 1) : Int) = -(Int.negSucc a) := by
          rw [Int.negSucc_eq]
          push_cast
          ring
        rw [h2]
        exact dvd_neg.mpr hx
      rw [h2n] at h1
      exact_mod_cast h1
    have hP := Nat.two_pow_pos n
    have hmod : a % 2 ^ n = 2 ^ n - 1 := by
      have h0 : (a + 1) % 2 ^ n = 0 := Nat.mod_eq_zero_of_dvd ha
      have hr : a % 2 ^ n < 2 ^ n := Nat.mod_lt _ hP
      by_cases hn : (2 : Nat) ^ n = 1
      · simp [hn, Nat.mod_one]
      · have h1 : 1 % 2 ^ n = 1 := Nat.mod_eq_of_lt (by omega)
        rw [Nat.add_mod, h1] at h0
        by_cases hlt : a % 2 ^ n + 1 < 2 ^ n
        · rw [Nat.mod_eq_of_lt hlt] at h0
          omega
        · omega
    have hba : b ≤ a := by
      have h2 := Nat.le_of_dvd (by omega) ha
      omega
    rw [lor_negSucc_ofNat, nat_ldiff_all_ones hmod hb, Int.negSucc_eq, Int.negSucc_eq,
      Nat.cast_sub hba]
    ring

/-! Arithmetic characterisation of the decode functions and of `wrap64`. -/

theorem machine_left_eq : machine_left = 12 := rfl

theorem data_center_left_eq : data_center_left = 18 := rfl

theorem timestamp_left_eq : timestamp_left = 22 := rfl

/-- `ParseSequence` is reduction modulo `2^12`, for every `int64` input. -/
theorem ParseSequence_eq (id : Int) : ParseSequence id = id % 2 ^ 12 := by
  have h : max_sequence = (2 ^ 12 - 1) * 2 ^ 0 := by decide
  simp only [ParseSequence, h, land_field]
  norm_num

/-- `ParseMachineId` extracts bits 12–17, for every `int64` input. -/
theorem ParseMachineId_eq (id : Int) : ParseMachineId id = id / 2 ^ 12 % 2 ^ 6 := by
  have h : shl64 max_machine_num 12 = (2 ^ 6 - 1) * 2 ^ 12 := by decide
  simp only [ParseMachineId, machine_left_eq, h, sar, land_field]
  rw [Int.fdiv_eq_ediv _ (show (0 : Int) ≤ 2 ^ 12 by positivity),
    Int.mul_ediv_cancel _ (by positivity)]

/-- `ParseDataCenter` extracts bits 18–21, for every `int64` input. -/
theorem ParseDataCenter_eq (id : Int) : ParseDataCenter id = id / 2 ^ 18 % 2 ^ 4 := by
  have h : shl64 max_data_center_num 18 = (2 ^ 4 - 1) * 2 ^ 18 := by decide
  simp only [ParseDataCenter, data_center_left_eq, h, sar, land_field]
  rw [Int.fdiv_eq_ediv _ (show (0 : Int) ≤ 2 ^ 18 by positivity),
    Int.mul_ediv_cancel _ (by positivity)]

/-- `ParseDateTime` extracts bits 22–62, for every `int64` input. -/
theorem ParseDateTime_eq (id : Int) : ParseDateTime id = id / 2 ^ 22 % 2 ^ 41 := by
  have h : shl64 max_timestamp_num 22 = (2 ^ 41 - 1) * 2 ^ 22 := by decide
  simp only [ParseDateTime, timestamp_left_eq, h, sar, land_field]
  rw [Int.fdiv_eq_ediv _ (show (0 : Int) ≤ 2 ^ 22 by positivity),
    Int.mul_ediv_cancel _ (by positivity)]

theorem wrap64_sub (x : Int) : wrap64 x = x - 2 ^ 64 * ((x + 2 ^ 63) / 2 ^ 64) := by
  simp only [wrap64]
  rw [Int.emod_def]
  ring

theorem wrap64_eq {x : Int} (h1 : -(2 ^ 63) ≤ x) (h2 : x < 2 ^ 63) : wrap64 x = x := by
  simp only [wrap64]
  rw [Int.emod_eq_of_lt (by omega) (by omega)]
  ring

theorem dvd_wrap64 {k : Nat} (hk : k ≤ 64) {x : Int} (h : (2 ^ k : Int) ∣ x) :
    (2 ^ k : Int) ∣ wrap64 x := by
  rw [wrap64_sub]
  exact dvd_sub h (Dvd.dvd.mul_right (pow_dvd_pow 2 hk) _)

/-- Decoding a value composed of disjoint fields recovers each field; the
timestamp field is recovered modulo `2^41` (`off` may be arbitrary). -/
theorem decode_fields (off : Int) {dc m q : Int} (hdc0 : 0 ≤ dc) (hdc1 : dc < 2 ^ 4)
    (hm0 : 0 ≤ m) (hm1 : m < 2 ^ 6) (hq0 : 0 ≤ q) (hq1 : q < 2 ^ 12) :
    ParseDataCenter (off * 2 ^ 22 + dc * 2 ^ 18 + m * 2 ^ 12 + q) = dc ∧
    ParseMachineId (off * 2 ^ 22 + dc * 2 ^ 18 + m * 2 ^ 12 + q) = m ∧
    ParseSequence (off * 2 ^ 22 + dc * 2 ^ 18 + m * 2 ^ 12 + q) = q ∧
    ParseDateTime (off * 2 ^ 22 + dc * 2 ^ 18 + m * 2 ^ 12 + q) = off % 2 ^ 41 := by
  have l4 : (2 : Int) ^ 4 = 16 := by norm_num
  have l6 : (2 : Int) ^ 6 = 64 := by norm_num
  have l12 : (2 : Int) ^ 12 = 4096 := by norm_num
  have l18 : (2 : Int) ^ 18 = 262144 := by norm_num
  have l22 : (2 : Int) ^ 22 = 4194304 := by norm_num
  refine ⟨?_, ?_, ?_, ?_⟩
  · rw [ParseDataCenter_eq,
      show off * 2 ^ 22 + dc * 2 ^ 18 + m * 2 ^ 12 + q =
        (q + m * 2 ^ 12) + (dc + off * 2 ^ 4) * 2 ^ 18 by ring,
      Int.add_mul_ediv_right _ _ (by positivity : (2 : Int) ^ 18 ≠ 0),
      Int.ediv_eq_zero_of_lt (by omega) (by omega), zero_add,
      Int.add_mul_emod_self, Int.emod_eq_of_lt hdc0 hdc1]
  · rw [ParseMachineId_eq,
      show off * 2 ^ 22 + dc * 2 ^ 18 + m * 2 ^ 12 + q =
        q + (m + (dc + off * 2 ^ 4) * 2 ^ 6) * 2 ^ 12 by ring,
      Int.add_mul_ediv_right _ _ (by positivity : (2 : Int) ^ 12 ≠ 0),
      Int.ediv_eq_zero_of_lt hq0 hq1, zero_add,
      Int.add_mul_emod_self, Int.emod_eq_of_lt hm0 hm1]
  · rw [ParseSequence_eq,
      show off * 2 ^ 22 + dc * 2 ^ 18 + m * 2 ^ 12 + q =
        q + (off * 2 ^ 10 + dc * 2 ^ 6 + m) * 2 ^ 12 by ring,
      Int.add_mul_emod_self, Int.emod_eq_of_lt hq0 hq1]
  · rw [ParseDateTime_eq,
      show off * 2 ^ 22 + dc * 2 ^ 18 + m * 2 ^ 12 + q =
        (q + m * 2 ^ 12 + dc * 2 ^ 18) + off * 2 ^ 22 by ring,
      Int.add_mul_ediv_right _ _ (by positivity : (2 : Int) ^ 22 ≠ 0),
      Int.ediv_eq_zero_of_lt (by omega) (by omega), zero_add]

/-- The composed id is the sum of its disjoint fields (the timestamp part
is the wrapped shift; it may be negative or wrapped for extreme clocks). -/
theorem composeNextId_decomp (t : Int) (p : snowFlakeId)
    (hdc0 : 0 ≤ p.DataCenterId) (hdc1 : p.DataCenterId < 2 ^ 4)
    (hm0 : 0 ≤ p.MachineId) (hm1 : p.MachineId < 2 ^ 6)
    (hq0 : 0 ≤ p.Sequence) (hq1 : p.Sequence < 2 ^ 12) :
    composeNextId t p =
      wrap64 ((t - start_timestamp) * 2 ^ 22) + p.DataCenterId * 2 ^ 18 +
        p.MachineId * 2 ^ 12 + p.Sequence := by
  have l4 : (2 : Int) ^ 4 = 16 := by norm_num
  have l6 : (2 : Int) ^ 6 = 64 := by norm_num
  have l12 : (2 : Int) ^ 12 = 4096 := by norm_num
  have l18 : (2 : Int) ^ 18 = 262144 := by norm_num
  have l22 : (2 : Int) ^ 22 = 4194304 := by norm_num
  have hA : (2 ^ 22 : Int) ∣ wrap64 ((t - start_timestamp) * 2 ^ 22) :=
    dvd_wrap64 (by norm_num) ⟨t - start_timestamp, by ring⟩
  have hdcshift : shl64 p.DataCenterId data_center_left = p.DataCenterId * 2 ^ 18 := by
    rw [data_center_left_eq]
    exact wrap64_eq (by omega) (by omega)
  have hmshift : shl64 p.MachineId machine_left = p.MachineId * 2 ^ 12 := by
    rw [machine_left_eq]
    exact wrap64_eq (by omega) (by omega)
  have htshift : shl64 (t - start_timestamp) 22 = wrap64 ((t - start_timestamp) * 2 ^ 22) := rfl
  simp only [composeNextId, timestamp_left_eq, hdcshift, hmshift, htshift]
  rw [lor_eq_add (n := 22) hA (by omega) (by omega),
    lor_eq_add (n := 18)
      (dvd_add (dvd_trans (pow_dvd_pow 2 (by norm_num)) hA) ⟨p.DataCenterId, by ring⟩)
      (by omega) (by omega),
    lor_eq_add (n := 12)
      (dvd_add (dvd_add (dvd_trans (pow_dvd_pow 2 (by norm_num)) hA)
        ⟨p.DataCenterId * 2 ^ 6, by ring⟩) ⟨p.MachineId, by ring⟩)
      hq0 (by omega)]

/-! Branch lemmas for `NextId` and `getNextMill`, and inversion lemmas. -/

/-- The sequence update `(Sequence + 1) & max_sequence` is mod `2^12`. -/
theorem land_max_sequence (x : Int) : Int.land x max_sequence = x % 2 ^ 12 := by
  have h : max_sequence = (2 ^ 12 - 1) * 2 ^ 0 := by decide
  rw [h, land_field]
  norm_num

theorem NextId_nil (p : snowFlakeId) : NextId p [] = none := rfl

theorem NextId_backward {p : snowFlakeId} {t : Int} {r : List Int}
    (h : t < p.LastTimeStamp) :
    NextId p (t :: r) =
      some (Except.error "Clock moved backwards.  Refusing to generate id", p, r) := by
  simp only [NextId, getNewTimeStamp, if_pos h]

theorem NextId_fresh {p : snowFlakeId} {t : Int} {r : List Int}
    (h : p.LastTimeStamp < t) :
    NextId p (t :: r) =
      some (Except.ok (composeNextId t { p with Sequence := 0, LastTimeStamp := t }),
        { p with Sequence := 0, LastTimeStamp := t }, r) := by
  have h1 : ¬ t < p.LastTimeStamp := by omega
  have h2 : ¬ t = p.LastTimeStamp := by omega
  simp only [NextId, getNewTimeStamp, if_neg h1, if_neg h2]

theorem NextId_stuck {p : snowFlakeId} {t : Int} {r : List Int}
    (he : t = p.LastTimeStamp) (hnz : Int.land (p.Sequence + 1) max_sequence ≠ 0) :
    NextId p (t :: r) =
      some (Except.ok (composeNextId t
          { p with Sequence := Int.land (p.Sequence + 1) max_sequence, LastTimeStamp := t }),
        { p with Sequence := Int.land (p.Sequence + 1) max_sequence, LastTimeStamp := t },
        r) := by
  have h1 : ¬ t < p.LastTimeStamp := by omega
  simp only [NextId, getNewTimeStamp, if_neg h1, if_pos he, if_neg hnz]

theorem NextId_wrap {p : snowFlakeId} {t : Int} {r : List Int} {mill : Int} {r2 : List Int}
    (he : t = p.LastTimeStamp) (hz : Int.land (p.Sequence + 1) max_sequence = 0)
    (hg : getNextMill { p with Sequence := Int.land (p.Sequence + 1) max_sequence } r =
      some (mill, r2)) :
    NextId p (t :: r) =
      some (Except.ok (composeNextId mill
          { p with
            Sequence := Int.land (p.Sequence + 1) max_sequence,
            LastTimeStamp := mill }),
        { p with Sequence := Int.land (p.Sequence + 1) max_sequence, LastTimeStamp := mill },
        r2) := by
  have h1 : ¬ t < p.LastTimeStamp := by omega
  simp only [NextId, getNewTimeStamp, if_neg h1, if_pos he, if_pos hz, hg]

theorem NextId_wrap_none {p : snowFlakeId} {t : Int} {r : List Int}
    (he : t = p.LastTimeStamp) (hz : Int.land (p.Sequence + 1) max_sequence = 0)
    (hg : getNextMill { p with Sequence := Int.land (p.Sequence + 1) max_sequence } r =
      none) :
    NextId p (t :: r) = none := by
  have h1 : ¬ t < p.LastTimeStamp := by omega
  simp only [NextId, getNewTimeStamp, if_neg h1, if_pos he, if_pos hz, hg]

theorem getNextMill_mem {p : snowFlakeId} {c : List Int} {mill : Int} {r2 : List Int}
    (h : getNextMill p c = some (mill, r2)) : mill ∈ c := by
  cases c with
  | nil => simp [getNextMill, getNewTimeStamp] at h
  | cons m r =>
    simp only [getNextMill, getNewTimeStamp] at h
    by_cases hle : m ≤ p.LastTimeStamp
    · rw [if_pos hle] at h
      cases r with
      | nil => simp [getNewTimeStamp] at h
      | cons m2 r2' =>
        simp only [getNewTimeStamp, Option.some.injEq, Prod.mk.injEq] at h
        exact h.1 ▸ List.mem_cons_of_mem _ (List.mem_cons_self _ _)
    · rw [if_neg hle] at h
      simp at h

/-- Inversion of a successful `NextId` call: the returned id is the
composition over the final state, the identity fields are unchanged, the
final sequence is a 12-bit value, and the composed timestamp was one of the
clock readings. -/
theorem NextId_ok_shape {p : snowFlakeId} {clock : List Int} {id : Int} {p' : snowFlakeId}
    {r' : List Int} (h : NextId p clock = some (Except.ok id, p', r')) :
    id = composeNextId p'.LastTimeStamp p' ∧
    p'.DataCenterId = p.DataCenterId ∧ p'.MachineId = p.MachineId ∧
    0 ≤ p'.Sequence ∧ p'.Sequence < 2 ^ 12 ∧ p'.LastTimeStamp ∈ clock := by
  cases clock with
  | nil => exact absurd h (by simp [NextId_nil])
  | cons t r =>
    by_cases h1 : t < p.LastTimeStamp
    · rw [NextId_backward h1] at h
      simp at h
    · by_cases h2 : t = p.LastTimeStamp
      · by_cases h3 : Int.land (p.Sequence + 1) max_sequence = 0
        · cases hg : getNextMill { p with Sequence := Int.land (p.Sequence + 1) max_sequence }
              r with
          | none =>
            rw [NextId_wrap_none h2 h3 hg] at h
            simp at h
          | some v =>
            obtain ⟨mill, r2⟩ := v
            rw [NextId_wrap h2 h3 hg] at h
            simp only [Option.some.injEq, Prod.mk.injEq, Except.ok.injEq] at h
            obtain ⟨hid, hp, hr⟩ := h
            subst hp
            refine ⟨hid.symm, rfl, rfl, ?_, ?_, ?_⟩
            · simp [h3]
            · simp [h3]
            · exact List.mem_cons_of_mem _ (getNextMill_mem hg)
        · rw [NextId_stuck h2 h3] at h
          simp only [Option.some.injEq, Prod.mk.injEq, Except.ok.injEq] at h
          obtain ⟨hid, hp, hr⟩ := h
          subst hp
          refine ⟨hid.symm, rfl, rfl, ?_, ?_, ?_⟩
          · simp only [land_max_sequence]
            exact Int.emod_nonneg _ (by positivity)
          · simp only [land_max_sequence]
            exact Int.emod_lt_of_pos _ (by positivity)
          · exact List.mem_cons_self _ _
      · have h4 : p.LastTimeStamp < t := by omega
        rw [NextId_fresh h4] at h
        simp only [Option.some.injEq, Prod.mk.injEq, Except.ok.injEq] at h
        obtain ⟨hid, hp, hr⟩ := h
        subst hp
        exact ⟨hid.symm, rfl, rfl, le_refl _, by positivity, List.mem_cons_self _ _⟩

/-- Inversion: a successful call whose first reading equals the stored
`LastTimeStamp` increments the sequence modulo `2^12`. -/
theorem NextId_same_ms_seq {p : snowFlakeId} {t : Int} {r : List Int} {id : Int}
    {p' : snowFlakeId} {r' : List Int} (he : t = p.LastTimeStamp)
    (h : NextId p (t :: r) = some (Except.ok id, p', r')) :
    p'.Sequence = (p.Sequence + 1) % 2 ^ 12 := by
  by_cases h3 : Int.land (p.Sequence + 1) max_sequence = 0
  · cases hg : getNextMill { p with Sequence := Int.land (p.Sequence + 1) max_sequence }
        r with
    | none =>
      rw [NextId_wrap_none he h3 hg] at h
      simp at h
    | some v =>
      obtain ⟨mill, r2⟩ := v
      rw [NextId_wrap he h3 hg] at h
      simp only [Option.some.injEq, Prod.mk.injEq, Except.ok.injEq] at h
      obtain ⟨hid, hp, hr⟩ := h
      subst hp
      exact land_max_sequence _
  · rw [NextId_stuck he h3] at h
    simp only [Option.some.injEq, Prod.mk.injEq, Except.ok.injEq] at h
    obtain ⟨hid, hp, hr⟩ := h
    subst hp
    exact land_max_sequence _

/-- Inversion: an error return happens only on a backward clock, and then
the state is returned unchanged. -/
theorem NextId_error_inv {p : snowFlakeId} {t : Int} {r : List Int} {e : String}
    {p' : snowFlakeId} {r' : List Int}
    (h : NextId p (t :: r) = some (Except.error e, p', r')) :
    t < p.LastTimeStamp ∧ p' = p ∧
      e = "Clock moved backwards.  Refusing to generate id" ∧ r' = r := by
  by_cases h1 : t < p.LastTimeStamp
  · rw [NextId_backward h1] at h
    simp only [Option.some.injEq, Prod.mk.injEq, Except.error.injEq] at h
    exact ⟨h1, h.2.1.symm, h.1.symm, h.2.2.symm⟩
  · exfalso
    by_cases h2 : t = p.LastTimeStamp
    · by_cases h3 : Int.land (p.Sequence + 1) max_sequence = 0
      · cases hg : getNextMill { p with Sequence := Int.land (p.Sequence + 1) max_sequence }
            r with
        | none =>
          rw [NextId_wrap_none h2 h3 hg] at h
          simp at h
        | some v =>
          obtain ⟨mill, r2⟩ := v
          rw [NextId_wrap h2 h3 hg] at h
          simp at h
      · rw [NextId_stuck h2 h3] at h
        simp at h
    · have h4 : p.LastTimeStamp < t := by omega
      rw [NextId_fresh h4] at h
      simp at h

/-! Concrete evaluations used by witnesses and counterexamples.  The clock
value `1480166465636` is `start_timestamp + 5`, and
`21499904 = 5 * 2^22 + 2 * 2^18 + 1 * 2^12` is the id composed at that
millisecond by the generator with identity `(2, 1)` and sequence `0`. -/

theorem composeNextId_T (q : Int) (h0 : 0 ≤ q) (h1 : q < 4096) :
    composeNextId 1480166465636 (⟨2, 1, q, 1480166465636⟩ : snowFlakeId) =
      21499904 + q := by
  rw [composeNextId_decomp _ _ (by norm_num) (by norm_num) (by norm_num) (by norm_num)
    (by exact h0) (by norm_num; omega)]
  dsimp only
  rw [show (1480166465636 - start_timestamp : Int) = 5 by norm_num [start_timestamp]]
  rw [wrap64_eq (by norm_num) (by norm_num)]
  norm_num

/-- A call one millisecond after `LastTimeStamp` (the fresh-millisecond
branch) from sequence `q`. -/
theorem NextId_T_first (q : Int) (r : List Int) :
    NextId ⟨2, 1, q, 1480166465635⟩ ((1480166465636 : Int) :: r) =
      some (Except.ok 21499904, ⟨2, 1, 0, 1480166465636⟩, r) := by
  rw [NextId_fresh (show ((⟨2, 1, q, 1480166465635⟩ : snowFlakeId).LastTimeStamp : Int) <
    1480166465636 by norm_num)]
  have hc := composeNextId_T 0 (by norm_num) (by norm_num)
  rw [show ({ (⟨2, 1, q, 1480166465635⟩ : snowFlakeId) with
      Sequence := 0, LastTimeStamp := (1480166465636 : Int) } : snowFlakeId) =
    ⟨2, 1, 0, 1480166465636⟩ from rfl, hc]
  norm_num

/-- A call in the same millisecond without sequence wraparound. -/
theorem NextId_T_step {q : Int} (h0 : 0 ≤ q) (h1 : q + 1 ≤ 4095) (r : List Int) :
    NextId ⟨2, 1, q, 1480166465636⟩ ((1480166465636 : Int) :: r) =
      some (Except.ok (21499904 + (q + 1)), ⟨2, 1, q + 1, 1480166465636⟩, r) := by
  have hland : Int.land (q + 1) max_sequence = q + 1 := by
    rw [land_max_sequence, Int.emod_eq_of_lt (by omega) (by omega)]
  have hnz : Int.land ((⟨2, 1, q, 1480166465636⟩ : snowFlakeId).Sequence + 1)
      max_sequence ≠ 0 := by
    show Int.land (q + 1) max_sequence ≠ 0
    rw [hland]
    omega
  rw [NextId_stuck rfl hnz]
  dsimp only
  rw [hland, composeNextId_T (q + 1) (by omega) (by omega)]

/-- A call in the same millisecond with sequence wraparound (`4095 + 1`
wraps to `0`): `getNextMill` consumes two readings and — because of the
misplaced `break` — returns the second one even though it has not advanced
past `LastTimeStamp`. -/
theorem NextId_T_wrap (r : List Int) :
    NextId ⟨2, 1, 4095, 1480166465636⟩
        ((1480166465636 : Int) :: 1480166465636 :: 1480166465636 :: r) =
      some (Except.ok 21499904, ⟨2, 1, 0, 1480166465636⟩, r) := by
  have hz : Int.land ((⟨2, 1, 4095, 1480166465636⟩ : snowFlakeId).Sequence + 1)
      max_sequence = 0 := by
    show Int.land 4096 max_sequence = 0
    rw [land_max_sequence]
    decide
  have hg : getNextMill
      { (⟨2, 1, 4095, 1480166465636⟩ : snowFlakeId) with
        Sequence := Int.land ((⟨2, 1, 4095, 1480166465636⟩ : snowFlakeId).Sequence + 1)
          max_sequence }
      ((1480166465636 : Int) :: 1480166465636 :: r) = some (1480166465636, r) := by
    simp only [getNextMill, getNewTimeStamp]
    rw [if_pos (le_refl (1480166465636 : Int))]
  rw [NextId_wrap rfl hz hg]
  dsimp only
  rw [hz, composeNextId_T 0 (by norm_num) (by norm_num)]
  norm_num

/-- Issue `n` ids in a loop (as the repository's test harness does),
stopping at the first failed call; returns the ids issued, the final state
and the remaining clock readings. -/
def runNextIds : snowFlakeId → List Int → Nat → List Int × snowFlakeId × List Int
  | p, clock, 0 => ([], p, clock)
  | p, clock, n + 1 =>
    match NextId p clock with
    | some (Except.ok id, p', r) =>
      let rest := runNextIds p' r n
      (id :: rest.1, rest.2)
    | _ => ([], p, clock)

theorem runNextIds_zero (p : snowFlakeId) (clock : List Int) :
    runNextIds p clock 0 = ([], p, clock) := rfl

theorem runNextIds_ok {p : snowFlakeId} {clock : List Int} {n : Nat} {id : Int}
    {p' : snowFlakeId} {r : List Int}
    (h : NextId p clock = some (Except.ok id, p', r)) :
    runNextIds p clock (n + 1) =
      (id :: (runNextIds p' r n).1, (runNextIds p' r n).2) := by
  simp only [runNextIds, h]

/-- Running `n + 1` calls from sequence `4095 - n` at a stuck clock: all
succeed, and the last one wraps and re-issues `21499904`, the id already
issued at this millisecond for sequence `0`. -/
theorem runNextIds_wrap_chain : ∀ n : Nat, n ≤ 4095 → ∀ j : Nat,
    ∃ ids : List Int,
      runNextIds ⟨2, 1, (4095 - n : Int), 1480166465636⟩
          (List.replicate (n + 3 + j) (1480166465636 : Int)) (n + 1) =
        (ids, ⟨2, 1, 0, 1480166465636⟩, List.replicate j (1480166465636 : Int)) ∧
      ids.length = n + 1 ∧ ids.count 21499904 = 1 := by
  intro n
  induction n with
  | zero =>
    intro _ j
    refine ⟨[21499904], ?_, rfl, by decide⟩
    rw [show (0 : Nat) + 3 + j = 3 + j by omega, List.replicate_add,
      show List.replicate 3 (1480166465636 : Int) =
        [1480166465636, 1480166465636, 1480166465636] from rfl]
    rw [show ((4095 : Int) - ((0 : Nat) : Int)) = 4095 by norm_num]
    simp only [List.cons_append, List.nil_append]
    rw [runNextIds_ok (NextId_T_wrap (List.replicate j (1480166465636 : Int))), runNextIds_zero]
  | succ n ih =>
    intro hn j
    obtain ⟨ids, hrun, hlen, hcount⟩ := ih (by omega) j
    have hq1 : ((4095 : Int) - ((n + 1 : Nat) : Int)) + 1 = 4095 - (n : Int) := by
      push_cast
      ring
    have hstep := NextId_T_step (q := (4095 : Int) - ((n + 1 : Nat) : Int))
      (by push_cast; omega) (by push_cast; omega)
      (List.replicate (n + 3 + j) (1480166465636 : Int))
    rw [hq1] at hstep
    refine ⟨(21499904 + (4095 - (n : Int))) :: ids, ?_, by simp [hlen], ?_⟩
    · rw [show (n + 1) + 3 + j = (n + 3 + j) + 1 by omega, List.replicate_succ]
      rw [runNextIds_ok hstep, hrun]
    · rw [List.count_cons, hcount]
      have hne : ¬ ((21499904 + (4095 - (n : Int))) = 21499904) := by
        have : (n : Int) ≤ 4094 := by omega
        omega
      simp [hne]

/-- Decoding a successful call: the identity fields and the final sequence
are recovered exactly; the timestamp field is recovered modulo the wrap of
the shifted offset (for arbitrary clock readings). -/
theorem NextId_ok_decode {p : snowFlakeId} {clock : List Int} {id : Int} {p' : snowFlakeId}
    {r' : List Int}
    (hdc0 : 0 ≤ p.DataCenterId) (hdc1 : p.DataCenterId < 2 ^ 4)
    (hm0 : 0 ≤ p.MachineId) (hm1 : p.MachineId < 2 ^ 6)
    (h : NextId p clock = some (Except.ok id, p', r')) :
    ParseDataCenter id = p.DataCenterId ∧ ParseMachineId id = p.MachineId ∧
    ParseSequence id = p'.Sequence ∧
    ∃ c : Int, wrap64 ((p'.LastTimeStamp - start_timestamp) * 2 ^ 22) = c * 2 ^ 22 ∧
      ParseDateTime id = c % 2 ^ 41 := by
  obtain ⟨hid, hdc, hm, hq0, hq1, hmem⟩ := NextId_ok_shape h
  have hdc0' : 0 ≤ p'.DataCenterId := by rw [hdc]; exact hdc0
  have hdc1' : p'.DataCenterId < 2 ^ 4 := by rw [hdc]; exact hdc1
  have hm0' : 0 ≤ p'.MachineId := by rw [hm]; exact hm0
  have hm1' : p'.MachineId < 2 ^ 6 := by rw [hm]; exact hm1
  have hA : (2 ^ 22 : Int) ∣ wrap64 ((p'.LastTimeStamp - start_timestamp) * 2 ^ 22) :=
    dvd_wrap64 (by norm_num) ⟨p'.LastTimeStamp - start_timestamp, by ring⟩
  obtain ⟨c, hc⟩ := hA
  have hc' : wrap64 ((p'.LastTimeStamp - start_timestamp) * 2 ^ 22) = c * 2 ^ 22 := by
    rw [hc]; ring
  have hdecomp := composeNextId_decomp p'.LastTimeStamp p' hdc0' hdc1' hm0' hm1' hq0 hq1
  rw [hc'] at hdecomp
  have hid2 : id = c * 2 ^ 22 + p'.DataCenterId * 2 ^ 18 + p'.MachineId * 2 ^ 12 +
      p'.Sequence := by rw [hid, hdecomp]
  obtain ⟨d1, d2, d3, d4⟩ := decode_fields c hdc0' hdc1' hm0' hm1' hq0 hq1
  rw [hid2]
  exact ⟨by rw [d1, hdc], by rw [d2, hm], d3, ⟨c, hc', d4⟩⟩

/-- Evaluation of `NextId` on a fresh generator when the clock reads `0`
(before the custom epoch): the call succeeds and the shifted negative
offset makes the id negative and its decoded timestamp garbage. -/
theorem NextId_epoch_cex :
    NextId ⟨2, 1, 0, -1⟩ [0] =
      some (Except.ok (-6208268127461437440), ⟨2, 1, 0, 0⟩, []) := by
  rw [NextId_fresh (show ((⟨2, 1, 0, -1⟩ : snowFlakeId).LastTimeStamp : Int) < 0 by
    norm_num)]
  have hc : composeNextId 0 (⟨2, 1, 0, 0⟩ : snowFlakeId) = -6208268127461437440 := by
    rw [composeNextId_decomp _ _ (by norm_num) (by norm_num) (by norm_num) (by norm_num)
      (by norm_num) (by norm_num)]
    dsimp only
    rw [show ((0 : Int) - start_timestamp) = -1480166465631 by norm_num [start_timestamp]]
    rw [wrap64_eq (by norm_num) (by norm_num)]
    norm_num
  rw [show ({ (⟨2, 1, 0, -1⟩ : snowFlakeId) with
      Sequence := 0, LastTimeStamp := (0 : Int) } : snowFlakeId) = ⟨2, 1, 0, 0⟩ from rfl, hc]

/-- C1, counterexample: as literally stated the round-trip claim is false —
a successful call can observe a clock reading (here `0`, before the custom
epoch) whose offset `0 - start_timestamp` is negative, and `ParseDateTime`
of the returned id (a 41-bit field) cannot equal that offset. -/
theorem C1_round_trip_cex :
    NextId ⟨2, 1, 0, -1⟩ [0] =
      some (Except.ok (-6208268127461437440), ⟨2, 1, 0, 0⟩, []) ∧
    ParseDateTime (-6208268127461437440) = 718856789921 ∧
    (⟨2, 1, 0, 0⟩ : snowFlakeId).LastTimeStamp - start_timestamp ≠ 718856789921 := by
  refine ⟨NextId_epoch_cex, ?_, by norm_num [start_timestamp]⟩
  rw [ParseDateTime_eq]
  norm_num

/-- C1 (amended): for a generator whose identity is in range, a successful
`NextId` call all of whose clock readings lie in the representable window
`[start_timestamp, start_timestamp + 2^41)` returns an id that decodes back
to the data center id, the machine id, the millisecond offset used to
compose the id, and the sequence value used to compose it. -/
theorem C1_round_trip_amended (p : snowFlakeId) (clock : List Int) (id : Int)
    (p' : snowFlakeId) (r' : List Int)
    (hdc0 : 0 ≤ p.DataCenterId) (hdc1 : p.DataCenterId ≤ max_data_center_num)
    (hm0 : 0 ≤ p.MachineId) (hm1 : p.MachineId ≤ max_machine_num)
    (hclock : ∀ x ∈ clock, start_timestamp ≤ x ∧ x < start_timestamp + 2 ^ timestamp_bit)
    (h : NextId p clock = some (Except.ok id, p', r')) :
    ParseDataCenter id = p.DataCenterId ∧ ParseMachineId id = p.MachineId ∧
    ParseDateTime id = p'.LastTimeStamp - start_timestamp ∧
    ParseSequence id = p'.Sequence := by
  have hdc1' : p.DataCenterId < 2 ^ 4 := by
    rw [max_data_center_num_eq] at hdc1
    norm_num
    omega
  have hm1' : p.MachineId < 2 ^ 6 := by
    rw [max_machine_num_eq] at hm1
    norm_num
    omega
  obtain ⟨d1, d2, d3, c, hc, hdt⟩ := NextId_ok_decode hdc0 hdc1' hm0 hm1' h
  obtain ⟨hlo, hhi⟩ := hclock _ (NextId_ok_shape h).2.2.2.2.2
  rw [show timestamp_bit = 41 from rfl] at hhi
  have hoff0 : 0 ≤ p'.LastTimeStamp - start_timestamp := by omega
  have hoff1 : p'.LastTimeStamp - start_timestamp < 2 ^ 41 := by omega
  have hw : wrap64 ((p'.LastTimeStamp - start_timestamp) * 2 ^ 22) =
      (p'.LastTimeStamp - start_timestamp) * 2 ^ 22 := by
    have hb : (p'.LastTimeStamp - start_timestamp) * 2 ^ 22 ≤ (2 ^ 41 - 1) * 2 ^ 22 :=
      mul_le_mul_of_nonneg_right (by omega) (by norm_num)
    exact wrap64_eq (by nlinarith) (by nlinarith)
  have hceq : c = p'.LastTimeStamp - start_timestamp := by
    have h2 : (p'.LastTimeStamp - start_timestamp) * 2 ^ 22 = c * 2 ^ 22 := by
      rw [← hw, hc]
    exact (mul_right_cancel₀ (by positivity) h2).symm
  refine ⟨d1, d2, ?_, d3⟩
  rw [hdt, hceq, Int.emod_eq_of_lt hoff0 hoff1]

/-- C1, witness of the amended round trip at a concrete call. -/
theorem C1_round_trip_amended_witness :
    ParseDataCenter 21499910 = 2 ∧ ParseMachineId 21499910 = 1 ∧
    ParseDateTime 21499910 = 5 ∧ ParseSequence 21499910 = 6 := by
  have h : NextId ⟨2, 1, 5, 1480166465636⟩ [1480166465636] =
      some (Except.ok 21499910, ⟨2, 1, 6, 1480166465636⟩, []) := by
    have hstep := NextId_T_step (q := 5) (by norm_num) (by norm_num) ([] : List Int)
    norm_num at hstep
    exact hstep
  have h2 := C1_round_trip_amended ⟨2, 1, 5, 1480166465636⟩ [1480166465636] 21499910
    ⟨2, 1, 6, 1480166465636⟩ [] (by norm_num) (by rw [max_data_center_num_eq]; norm_num)
    (by norm_num) (by rw [max_machine_num_eq]; norm_num)
    (by
      intro x hx
      rw [List.mem_singleton] at hx
      subst hx
      refine ⟨by norm_num [start_timestamp], by norm_num [start_timestamp, timestamp_bit]⟩)
    h
  simpa [start_timestamp] using h2

/-- C7, counterexample: the sign bit of a generated id is not always `0` —
with the clock at `0` (before the custom epoch) the shifted negative offset
produces a negative id. -/
theorem C7_sign_bit_cex :
    NextId ⟨2, 1, 0, -1⟩ [0] =
      some (Except.ok (-6208268127461437440), ⟨2, 1, 0, 0⟩, []) ∧
    (-6208268127461437440 : Int) < 0 :=
  ⟨NextId_epoch_cex, by norm_num⟩

/-- C7 (amended): for a generator with in-range identity, every successful
`NextId` call whose clock readings lie in `[start_timestamp, start_timestamp
+ 2^41)` returns a non-negative id (sign bit `0`). -/
theorem C7_sign_bit_amended (p : snowFlakeId) (clock : List Int) (id : Int)
    (p' : snowFlakeId) (r' : List Int)
    (hdc0 : 0 ≤ p.DataCenterId) (hdc1 : p.DataCenterId ≤ max_data_center_num)
    (hm0 : 0 ≤ p.MachineId) (hm1 : p.MachineId ≤ max_machine_num)
    (hclock : ∀ x ∈ clock, start_timestamp ≤ x ∧ x < start_timestamp + 2 ^ timestamp_bit)
    (h : NextId p clock = some (Except.ok id, p', r')) :
    0 ≤ id := by
  obtain ⟨hid, hdc, hm, hq0, hq1, hmem⟩ := NextId_ok_shape h
  obtain ⟨hlo, hhi⟩ := hclock _ hmem
  rw [max_data_center_num_eq] at hdc1
  rw [max_machine_num_eq] at hm1
  have hdecomp := composeNextId_decomp p'.LastTimeStamp p'
    (by rw [hdc]; exact hdc0) (by rw [hdc]; norm_num; omega)
    (by rw [hm]; exact hm0) (by rw [hm]; norm_num; omega) hq0 hq1
  have hoff0 : 0 ≤ p'.LastTimeStamp - start_timestamp := by omega
  have hw : wrap64 ((p'.LastTimeStamp - start_timestamp) * 2 ^ 22) =
      (p'.LastTimeStamp - start_timestamp) * 2 ^ 22 := by
    rw [show timestamp_bit = 41 from rfl] at hhi
    have hb : (p'.LastTimeStamp - start_timestamp) * 2 ^ 22 ≤ (2 ^ 41 - 1) * 2 ^ 22 :=
      mul_le_mul_of_nonneg_right (by omega) (by norm_num)
    exact wrap64_eq (by nlinarith) (by nlinarith)
  rw [hid, hdecomp, hw]
  have h1 : 0 ≤ (p'.LastTimeStamp - start_timestamp) * 2 ^ 22 :=
    mul_nonneg hoff0 (by norm_num)
  have h2 : 0 ≤ p'.DataCenterId * 2 ^ 18 := mul_nonneg (by rw [hdc]; exact hdc0) (by norm_num)
  have h3 : 0 ≤ p'.MachineId * 2 ^ 12 := mul_nonneg (by rw [hm]; exact hm0) (by norm_num)
  omega

/-- C7, witness of the amended claim at a concrete call. -/
theorem C7_sign_bit_amended_witness : (0 : Int) ≤ 21499910 := by
  have h : NextId ⟨2, 1, 5, 1480166465636⟩ [1480166465636] =
      some (Except.ok 21499910, ⟨2, 1, 6, 1480166465636⟩, []) := by
    have hstep := NextId_T_step (q := 5) (by norm_num) (by norm_num) ([] : List Int)
    norm_num at hstep
    exact hstep
  exact C7_sign_bit_amended ⟨2, 1, 5, 1480166465636⟩ [1480166465636] 21499910
    ⟨2, 1, 6, 1480166465636⟩ [] (by norm_num) (by rw [max_data_center_num_eq]; norm_num)
    (by norm_num) (by rw [max_machine_num_eq]; norm_num)
    (by
      intro x hx
      rw [List.mem_singleton] at hx
      subst hx
      refine ⟨by norm_num [start_timestamp], by norm_num [start_timestamp, timestamp_bit]⟩)
    h

/-- C2: evaluation of the Go `getNextMill` at failing inputs.  With
`LastTimeStamp = 10` and readings `[10, 10, 11]` it returns `10`, which is
not strictly greater than `LastTimeStamp`; with first reading `11` (already
past `LastTimeStamp`) its `for` loop never terminates (modelled `none`). -/
theorem C2_getNextMill_eval :
    getNextMill ⟨2, 1, 0, 10⟩ [10, 10, 11] = some (10, [11]) ∧
    ¬ ((10 : Int) > 10) ∧
    getNextMill ⟨2, 1, 0, 10⟩ [11, 12, 13] = none :=
  ⟨rfl, by norm_num, rfl⟩

/-- C3: `NextId` returns the backward-clock error exactly when the reading
taken at the start of the call is strictly below the stored
`LastTimeStamp`; in that case no id is produced. -/
theorem C3_clock_error_iff (p : snowFlakeId) (t : Int) (r : List Int) :
    (∃ p' r', NextId p (t :: r) =
        some (Except.error "Clock moved backwards.  Refusing to generate id", p', r')) ↔
      t < p.LastTimeStamp := by
  constructor
  · rintro ⟨p', r', h⟩
    exact (NextId_error_inv h).1
  · intro h
    exact ⟨p, r, NextId_backward h⟩

/-- C4: two consecutive successful calls that observe the same clock
millisecond `t` (every reading of both calls is `t`): the second id's
decoded sequence is the first's plus one modulo `2^12`, and its decoded
timestamp offset is unchanged. -/
theorem C4_same_millisecond (p : snowFlakeId) (t : Int) (c₁ c₂ : List Int)
    (hdc0 : 0 ≤ p.DataCenterId) (hdc1 : p.DataCenterId ≤ max_data_center_num)
    (hm0 : 0 ≤ p.MachineId) (hm1 : p.MachineId ≤ max_machine_num)
    (hone : ∀ x ∈ c₁, x = t) (htwo : ∀ x ∈ c₂, x = t)
    (id₁ id₂ : Int) (p₁ p₂ : snowFlakeId) (r₁ r₂ : List Int)
    (h₁ : NextId p c₁ = some (Except.ok id₁, p₁, r₁))
    (h₂ : NextId p₁ c₂ = some (Except.ok id₂, p₂, r₂)) :
    ParseSequence id₂ = (ParseSequence id₁ + 1) % 2 ^ sequence_bit ∧
    ParseDateTime id₂ = ParseDateTime id₁ := by
  have hdc1' : p.DataCenterId < 2 ^ 4 := by
    rw [max_data_center_num_eq] at hdc1
    norm_num
    omega
  have hm1' : p.MachineId < 2 ^ 6 := by
    rw [max_machine_num_eq] at hm1
    norm_num
    omega
  have shape₁ := NextId_ok_shape h₁
  have hlast₁ : p₁.LastTimeStamp = t := hone _ shape₁.2.2.2.2.2
  obtain ⟨e1, e2, e3, c, hcw, hcdt⟩ := NextId_ok_decode hdc0 hdc1' hm0 hm1' h₁
  have hdc0₂ : 0 ≤ p₁.DataCenterId := by rw [shape₁.2.1]; exact hdc0
  have hdc1₂ : p₁.DataCenterId < 2 ^ 4 := by rw [shape₁.2.1]; exact hdc1'
  have hm0₂ : 0 ≤ p₁.MachineId := by rw [shape₁.2.2.1]; exact hm0
  have hm1₂ : p₁.MachineId < 2 ^ 6 := by rw [shape₁.2.2.1]; exact hm1'
  obtain ⟨f1, f2, f3, d, hdw, hddt⟩ := NextId_ok_decode hdc0₂ hdc1₂ hm0₂ hm1₂ h₂
  have hlast₂ : p₂.LastTimeStamp = t := htwo _ (NextId_ok_shape h₂).2.2.2.2.2
  cases c₂ with
  | nil => exact absurd h₂ (by rw [NextId_nil]; simp)
  | cons t₂ r₂' =>
    have ht₂ : t₂ = t := htwo _ (List.mem_cons_self _ _)
    have hseq := NextId_same_ms_seq (by rw [ht₂, hlast₁]) h₂
    constructor
    · rw [f3, hseq, e3, show sequence_bit = 12 from rfl]
    · rw [hlast₁] at hcw
      rw [hlast₂] at hdw
      have hcd : c = d := by
        have hh : c * 2 ^ 22 = d * 2 ^ 22 := by rw [← hcw, ← hdw]
        exact mul_right_cancel₀ (by positivity) hh
      rw [hcdt, hddt, hcd]

/-- C4, witness: two concrete same-millisecond calls. -/
theorem C4_same_millisecond_witness :
    ParseSequence 21499911 = (ParseSequence 21499910 + 1) % 2 ^ sequence_bit ∧
    ParseDateTime 21499911 = ParseDateTime 21499910 := by
  have h₁ : NextId ⟨2, 1, 5, 1480166465636⟩ [1480166465636] =
      some (Except.ok 21499910, ⟨2, 1, 6, 1480166465636⟩, []) := by
    have hstep := NextId_T_step (q := 5) (by norm_num) (by norm_num) ([] : List Int)
    norm_num at hstep
    exact hstep
  have h₂ : NextId ⟨2, 1, 6, 1480166465636⟩ [1480166465636] =
      some (Except.ok 21499911, ⟨2, 1, 7, 1480166465636⟩, []) := by
    have hstep := NextId_T_step (q := 6) (by norm_num) (by norm_num) ([] : List Int)
    norm_num at hstep
    exact hstep
  exact C4_same_millisecond ⟨2, 1, 5, 1480166465636⟩ 1480166465636
    [1480166465636] [1480166465636] (by norm_num)
    (by rw [max_data_center_num_eq]; norm_num) (by norm_num)
    (by rw [max_machine_num_eq]; norm_num)
    (by intro x hx; rw [List.mem_singleton] at hx; exact hx)
    (by intro x hx; rw [List.mem_singleton] at hx; exact hx)
    21499910 21499911 ⟨2, 1, 6, 1480166465636⟩ ⟨2, 1, 7, 1480166465636⟩ [] [] h₁ h₂

/-- C5: a successful call whose clock reading is strictly greater than the
stored `LastTimeStamp` issues an id with decoded sequence `0` and stores
sequence `0`. -/
theorem C5_sequence_reset (p : snowFlakeId) (t : Int) (r : List Int) (id : Int)
    (p' : snowFlakeId) (r' : List Int)
    (hdc0 : 0 ≤ p.DataCenterId) (hdc1 : p.DataCenterId ≤ max_data_center_num)
    (hm0 : 0 ≤ p.MachineId) (hm1 : p.MachineId ≤ max_machine_num)
    (hgt : p.LastTimeStamp < t)
    (h : NextId p (t :: r) = some (Except.ok id, p', r')) :
    ParseSequence id = 0 ∧ p'.Sequence = 0 := by
  have hdc1' : p.DataCenterId < 2 ^ 4 := by
    rw [max_data_center_num_eq] at hdc1
    norm_num
    omega
  have hm1' : p.MachineId < 2 ^ 6 := by
    rw [max_machine_num_eq] at hm1
    norm_num
    omega
  obtain ⟨-, -, e3, -⟩ := NextId_ok_decode hdc0 hdc1' hm0 hm1' h
  have hp' : p'.Sequence = 0 := by
    rw [NextId_fresh hgt] at h
    simp only [Option.some.injEq, Prod.mk.injEq, Except.ok.injEq] at h
    obtain ⟨-, hp, -⟩ := h
    rw [← hp]
  exact ⟨by rw [e3, hp'], hp'⟩

/-- C5, witness: a concrete fresh-millisecond call from sequence `7`. -/
theorem C5_sequence_reset_witness :
    ParseSequence 21499904 = 0 ∧ (⟨2, 1, 0, 1480166465636⟩ : snowFlakeId).Sequence = 0 :=
  C5_sequence_reset ⟨2, 1, 7, 1480166465635⟩ 1480166465636 [] 21499904
    ⟨2, 1, 0, 1480166465636⟩ [] (by norm_num)
    (by rw [max_data_center_num_eq]; norm_num) (by norm_num)
    (by rw [max_machine_num_eq]; norm_num) (by norm_num)
    (NextId_T_first 7 [])

/-- Evaluation of `NewInstance` with the masks unfolded. -/
theorem NewInstance_eval (dc m : Int) :
    NewInstance dc m =
      if dc > 15 ∨ dc < 0 then
        (⟨0, 0, 0, -1⟩,
          some "DtaCenterId can't be greater than MAX_DATA_CENTER_NUM or less than 0！")
      else if m > 63 ∨ m < 0 then
        (⟨0, 0, 0, -1⟩,
          some "MachineId can't be greater than MAX_MACHINE_NUM or less than 0！")
      else (⟨dc, m, 0, -1⟩, none) := by
  simp only [NewInstance, max_data_center_num_eq, max_machine_num_eq,
    show negativeOne = -1 from rfl]

/-- C6: construction fails exactly when the data center id is outside
`[0, 2^4 - 1]` or the machine id is outside `[0, 2^6 - 1]`; on in-range
arguments it succeeds with `Sequence = 0` and `LastTimeStamp = -1`. -/
theorem C6_construction (dc m : Int) :
    ((NewInstance dc m).2 ≠ none ↔
      (dc < 0 ∨ 2 ^ 4 - 1 < dc ∨ m < 0 ∨ 2 ^ 6 - 1 < m)) ∧
    (0 ≤ dc → dc ≤ 2 ^ 4 - 1 → 0 ≤ m → m ≤ 2 ^ 6 - 1 →
      (NewInstance dc m).2 = none ∧ (NewInstance dc m).1.Sequence = 0 ∧
      (NewInstance dc m).1.LastTimeStamp = -1 ∧
      (NewInstance dc m).1.DataCenterId = dc ∧ (NewInstance dc m).1.MachineId = m) := by
  have h4 : (2 : Int) ^ 4 - 1 = 15 := by norm_num
  have h6 : (2 : Int) ^ 6 - 1 = 63 := by norm_num
  rw [NewInstance_eval, h4, h6]
  by_cases h1 : dc > 15 ∨ dc < 0
  · rw [if_pos h1]
    refine ⟨⟨fun _ => by omega, fun _ => by simp⟩, fun hdc0 hdc1 _ _ => by exfalso; omega⟩
  · by_cases h2 : m > 63 ∨ m < 0
    · rw [if_neg h1, if_pos h2]
      refine ⟨⟨fun _ => by omega, fun _ => by simp⟩, fun _ _ hm0 hm1 => by exfalso; omega⟩
    · rw [if_neg h1, if_neg h2]
      refine ⟨⟨fun hc => absurd rfl hc, fun hor => by exfalso; omega⟩,
        fun _ _ _ _ => ⟨rfl, rfl, rfl, rfl, rfl⟩⟩

/-- C6, witness: the sample identity `(2, 1)` used by the repository test. -/
theorem C6_construction_witness :
    (NewInstance 2 1).2 = none ∧ (NewInstance 2 1).1.Sequence = 0 ∧
    (NewInstance 2 1).1.LastTimeStamp = -1 ∧ (NewInstance 2 1).1.DataCenterId = 2 ∧
    (NewInstance 2 1).1.MachineId = 1 :=
  (C6_construction 2 1).2 (by norm_num) (by norm_num) (by norm_num) (by norm_num)

/-- C8: running 4097 calls on one generator inside one millisecond (clock
stuck at `start_timestamp + 5`) succeeds 4097 times but returns the id
`21499904` twice — sequence `0` is reused at an unchanged millisecond after
the wraparound because `getNextMill` returns a non-advanced reading. -/
theorem C8_duplicate_ids :
    ∃ (ids : List Int) (p' : snowFlakeId) (r' : List Int),
      runNextIds ⟨2, 1, 0, 1480166465635⟩
          ((1480166465636 : Int) :: List.replicate 4098 (1480166465636 : Int)) 4097 =
        (ids, p', r') ∧
      ids.length = 4097 ∧ 2 ≤ ids.count 21499904 ∧ ¬ ids.Nodup := by
  obtain ⟨ids, hrun, hlen, hcount⟩ := runNextIds_wrap_chain 4095 (by norm_num) 0
  rw [show ((4095 : Int) - ((4095 : Nat) : Int)) = 0 by norm_num,
    show (4095 : Nat) + 3 + 0 = 4098 from rfl,
    show List.replicate 0 (1480166465636 : Int) = [] from rfl] at hrun
  have hfirst := NextId_T_first 0 (List.replicate 4098 (1480166465636 : Int))
  refine ⟨21499904 :: ids, ⟨2, 1, 0, 1480166465636⟩, [], ?_, ?_, ?_, ?_⟩
  · rw [show (4097 : Nat) = 4096 + 1 from rfl, runNextIds_ok hfirst,
      show (4096 : Nat) = 4095 + 1 from rfl, hrun]
  · simp [hlen]
  · rw [List.count_cons_self, hcount]
  · intro hnod
    have hle := List.nodup_iff_count_le_one.mp hnod 21499904
    rw [List.count_cons_self, hcount] at hle
    omega

/-- C9: the four decode functions are total on every `int64` input and
their results are bounded by the widths of the fields they extract. -/
theorem C9_decode_total (id : Int) :
    0 ≤ ParseDataCenter id ∧ ParseDataCenter id ≤ 2 ^ 4 - 1 ∧
    0 ≤ ParseMachineId id ∧ ParseMachineId id ≤ 2 ^ 6 - 1 ∧
    0 ≤ ParseSequence id ∧ ParseSequence id ≤ 2 ^ 12 - 1 ∧
    0 ≤ ParseDateTime id ∧ ParseDateTime id ≤ 2 ^ 41 - 1 := by
  rw [ParseDataCenter_eq, ParseMachineId_eq, ParseSequence_eq, ParseDateTime_eq]
  have b1 := Int.emod_lt_of_pos (id / 2 ^ 18) (show (0 : Int) < 2 ^ 4 by positivity)
  have b2 := Int.emod_lt_of_pos (id / 2 ^ 12) (show (0 : Int) < 2 ^ 6 by positivity)
  have b3 := Int.emod_lt_of_pos id (show (0 : Int) < 2 ^ 12 by positivity)
  have b4 := Int.emod_lt_of_pos (id / 2 ^ 22) (show (0 : Int) < 2 ^ 41 by positivity)
  exact ⟨Int.emod_nonneg _ (by positivity), by omega,
    Int.emod_nonneg _ (by positivity), by omega,
    Int.emod_nonneg _ (by positivity), by omega,
    Int.emod_nonneg _ (by positivity), by omega⟩

/-- C10: when `NextId` fails with the backward-clock error, every field of
the generator state is unchanged. -/
theorem C10_error_atomic (p : snowFlakeId) (t : Int) (r : List Int) (e : String)
    (p' : snowFlakeId) (r' : List Int)
    (h : NextId p (t :: r) = some (Except.error e, p', r')) :
    p'.Sequence = p.Sequence ∧ p'.LastTimeStamp = p.LastTimeStamp ∧
    p'.DataCenterId = p.DataCenterId ∧ p'.MachineId = p.MachineId := by
  obtain ⟨-, hp, -, -⟩ := NextId_error_inv h
  rw [hp]
  exact ⟨rfl, rfl, rfl, rfl⟩

/-- C10, witness: a concrete backward-clock call. -/
theorem C10_error_atomic_witness :
    NextId ⟨2, 1, 7, 10⟩ [5] =
      some (Except.error "Clock moved backwards.  Refusing to generate id",
        ⟨2, 1, 7, 10⟩, []) ∧
    ((⟨2, 1, 7, 10⟩ : snowFlakeId).Sequence = (⟨2, 1, 7, 10⟩ : snowFlakeId).Sequence ∧
      (⟨2, 1, 7, 10⟩ : snowFlakeId).LastTimeStamp =
        (⟨2, 1, 7, 10⟩ : snowFlakeId).LastTimeStamp ∧
      (⟨2, 1, 7, 10⟩ : snowFlakeId).DataCenterId =
        (⟨2, 1, 7, 10⟩ : snowFlakeId).DataCenterId ∧
      (⟨2, 1, 7, 10⟩ : snowFlakeId).MachineId =
        (⟨2, 1, 7, 10⟩ : snowFlakeId).MachineId) :=
  ⟨rfl, C10_error_atomic ⟨2, 1, 7, 10⟩ 5 [] _ ⟨2, 1, 7, 10⟩ [] rfl⟩

end Snowflake
